import Mathlib

/-!
Shallow embedding of src/metaproperties_no_slots.py.

The module provides two facilities:
  * self_properties : bulk-copies entries of a scope dict onto an instance
    as attributes prefixed with one underscore, optionally capturing the
    copied values as a tuple in the fixed attribute "_args";
  * properties.prop : a decorator factory producing a property descriptor
    with a getter falling back to the wrapped function, an optional setter
    with change detection, an optional dirty flag ("_is_dirty") and an
    optional change-listener method invoked by name.

Python instances are modelled as association lists from attribute names to
values; setattr replaces the first binding or appends, getattr? looks up the
first binding.  Python values relevant to the claims are modelled by the
inductive Value (None, int, str, bool, tuple); equality of Values models
Python structural equality on this fragment.  A listener-method invocation
performed by a setter is modelled as an emitted MethodCall event recording
the method name looked up on the instance, the three positional arguments,
and the instance state at the moment of the call.
-/

mutual

/-- Python values used by the modelled fragment: None, int, str, bool, and
tuples of values. -/
inductive Value where
  | vnone : Value
  | vint (n : Int) : Value
  | vstr (s : String) : Value
  | vbool (b : Bool) : Value
  | vtup (vs : ValueList) : Value
deriving DecidableEq

/-- Lists of Python values (payload of a tuple value). -/
inductive ValueList where
  | nil : ValueList
  | cons (v : Value) (vs : ValueList) : ValueList
deriving DecidableEq

end

/-- Converts a Lean list of values into the tuple payload type. -/
def ValueList.ofList : List Value → ValueList
  | [] => .nil
  | v :: vs => .cons v (ValueList.ofList vs)

/-- A Python instance: its attribute dictionary, as an association list. -/
abbrev Inst := List (String × Value)

/-- Models Python getattr(inst, name) returning Option: the first binding of
name in the attribute list, if any. -/
def getattr? (inst : Inst) (name : String) : Option Value :=
  match inst with
  | [] => Option.none
  | kv :: rest => if kv.1 = name then some kv.2 else getattr? rest name

/-- Models Python setattr(inst, name, v): replaces the first binding of name,
or appends a new binding when name is absent. -/
def setattr (inst : Inst) (name : String) (v : Value) : Inst :=
  match inst with
  | [] => [(name, v)]
  | kv :: rest => if kv.1 = name then (name, v) :: rest else kv :: setattr rest name v

theorem getattr?_setattr_self (inst : Inst) (name : String) (v : Value) :
    getattr? (setattr inst name v) name = some v := by
  induction inst with
  | nil => simp [setattr, getattr?]
  | cons kv rest ih =>
      by_cases h : kv.1 = name
      · simp [setattr, getattr?, h]
      · simp [setattr, getattr?, h, ih]

theorem getattr?_setattr_ne (inst : Inst) (name m : String) (v : Value)
    (h : name ≠ m) : getattr? (setattr inst name v) m = getattr? inst m := by
  induction inst with
  | nil => simp [setattr, getattr?, h]
  | cons kv rest ih =>
      by_cases hk : kv.1 = name
      · simp [setattr, getattr?, hk, h]
      · simp [setattr, getattr?, hk, ih]

/-- The listener argument of properties.prop: Python None, a bool, or a str
(the annotation is Union bool str with default None). -/
inductive PyListener where
  | pynone : PyListener
  | pybool (b : Bool) : PyListener
  | pystr (s : String) : PyListener
deriving DecidableEq

/-- Python truthiness of the listener argument, as tested by the source in
the conditions "if read_only and listener:" and "if listener:".  None and
False are falsy; an empty string is falsy; True and non-empty strings are
truthy. -/
def PyListener.truthy : PyListener → Bool
  | .pynone => false
  | .pybool b => b
  | .pystr s => s ≠ ""

/-- The listener method name chosen by the source (line 71):
listener if isinstance(listener, str) else the reserved name "_changed". -/
def PyListener.nameOf : PyListener → String
  | .pystr s => s
  | _ => "_changed"

/-- A listener-method invocation performed by a setter: the method name
resolved on the instance, the three positional arguments (backing field
name, old value, new value), and the instance state at the moment of the
call (the call happens after the backing-field write and the dirty-flag
write). -/
structure MethodCall where
  method : String
  field : String
  old : Value
  new : Value
  instAtCall : Inst
deriving DecidableEq

/-- The observable outcome of running a setter: the resulting instance
attributes and the listener-method invocations performed, in order. -/
structure SetResult where
  attrs : Inst
  calls : List MethodCall
deriving DecidableEq

/-- The setter generated when a listener is configured (source lines 73-79):
read the old value (missing treated as None); when old != new, write the
backing field, set "_is_dirty" if auto_dirty, then invoke the listener
method with (field, old, new). -/
def setter_with_listener (field listener_name : String) (auto_dirty : Bool)
    (inst : Inst) (new : Value) : SetResult :=
  let old := (getattr? inst field).getD .vnone
  if old ≠ new then
    let i1 := setattr inst field new
    let i2 := if auto_dirty then setattr i1 "_is_dirty" (.vbool true) else i1
    { attrs := i2,
      calls := [{ method := listener_name, field := field, old := old,
                  new := new, instAtCall := i2 }] }
  else
    { attrs := inst, calls := [] }

/-- The setter generated when no listener is configured (source lines 81-85):
when the current value (missing treated as None) differs from the new one,
write the backing field and set "_is_dirty" if auto_dirty. -/
def setter_plain (field : String) (auto_dirty : Bool)
    (inst : Inst) (new : Value) : SetResult :=
  if (getattr? inst field).getD .vnone ≠ new then
    let i1 := setattr inst field new
    let i2 := if auto_dirty then setattr i1 "_is_dirty" (.vbool true) else i1
    { attrs := i2, calls := [] }
  else
    { attrs := inst, calls := [] }

/-- The getter (source line 88): lambda inst: getattr(inst, field, f(inst)).
Python evaluates the third argument strictly, so f runs on every read and
its result is used only when the backing field is absent.  The Bool
component records that f was invoked during the read (always true, by the
strict evaluation of the default argument). -/
def prop_getter (field : String) (f : Inst → Value) (inst : Inst) : Value × Bool :=
  let d := f inst
  ((getattr? inst field).getD d, true)

/-- The property descriptor returned by the decorator: the getter, and the
setter when one is generated (None models a read-only property). -/
structure PropDescriptor where
  getter : Inst → Value × Bool
  setter : Option (Inst → Value → SetResult)

/-- Python errors surfaced by the modelled fragment. -/
inductive PyError where
  | attributeError (msg : String) : PyError
  | valueError (msg : String) : PyError
deriving DecidableEq

/-- properties.prop applied to a function named fname with body f (source
lines 49-92).  ctx_auto_dirty is the auto_dirty default of the enclosing
properties context (line 58 computes self._auto_dirty or auto_dirty).  The
decorator computes the backing field name, raises ValueError when read_only
and a truthy listener are both requested, and otherwise returns a
descriptor whose setter is absent (read_only), listener-invoking (truthy
listener), or plain. -/
def properties.prop (ctx_auto_dirty : Bool) (read_only : Bool)
    (listener : PyListener) (auto_dirty : Bool)
    (fname : String) (f : Inst → Value) : Except PyError PropDescriptor :=
  let auto_dirty := ctx_auto_dirty || auto_dirty
  let field := "_" ++ fname
  if read_only && listener.truthy then
    .error (.valueError ("property " ++ field ++
      " cannot be read_only and observable at the same time."))
  else if read_only then
    .ok { getter := prop_getter field f, setter := Option.none }
  else if listener.truthy then
    .ok { getter := prop_getter field f,
          setter := some (setter_with_listener field listener.nameOf auto_dirty) }
  else
    .ok { getter := prop_getter field f,
          setter := some (setter_plain field auto_dirty) }

/-- Python assignment through a property descriptor: when the descriptor has
no setter, the runtime raises AttributeError and the instance is untouched;
otherwise the setter runs. -/
def prop_assign (d : PropDescriptor) (inst : Inst) (new : Value) :
    Except PyError SetResult :=
  match d.setter with
  | Option.none => .error (.attributeError "cannot set attribute")
  | some s => .ok (s inst new)

/-- self_properties (source lines 9-27): copies every scope entry whose key
is neither the literal "self" nor excluded onto the instance under the key
prefixed with one underscore; when save_args is true it additionally
collects the same values, in scope order, and finally stores them as a
tuple in the fixed attribute "_args". -/
def self_properties (self : Inst) (scope : List (String × Value))
    (exclude : List String) (save_args : Bool) : Inst :=
  if save_args then
    let r := scope.foldl
      (fun (acc : Inst × List Value) kv =>
        if kv.1 ≠ "self" ∧ kv.1 ∉ exclude then
          (setattr acc.1 ("_" ++ kv.1) kv.2, acc.2 ++ [kv.2])
        else acc)
      (self, [])
    setattr r.1 "_args" (.vtup (ValueList.ofList r.2))
  else
    scope.foldl
      (fun acc kv =>
        if kv.1 ≠ "self" ∧ kv.1 ∉ exclude then setattr acc ("_" ++ kv.1) kv.2
        else acc)
      self

theorem underscore_inj {a b : String} (h : "_" ++ a = "_" ++ b) : a = b := by
  have hd : ("_" ++ a).data = ("_" ++ b).data := congrArg String.data h
  simp only [String.data_append] at hd
  exact String.ext (by simpa using hd)

theorem field_ne_dirty {fname : String} (h : fname ≠ "is_dirty") :
    ("_" ++ fname) ≠ "_is_dirty" := by
  intro he
  apply h
  apply underscore_inj
  rw [he]
  decide

theorem field_ne_args {k : String} (h : k ≠ "args") :
    "_args" ≠ ("_" ++ k) := by
  intro he
  apply h
  apply underscore_inj
  rw [← he]
  decide

theorem prop_ok_getter (c ro ad : Bool) (l : PyListener) (fname : String)
    (f : Inst → Value) (d : PropDescriptor)
    (h : properties.prop c ro l ad fname f = Except.ok d) :
    d.getter = prop_getter ("_" ++ fname) f := by
  by_cases h2 : ro <;> by_cases h3 : l.truthy <;>
    simp [properties.prop, h2, h3] at h <;> rw [← h]

theorem prop_setter_cases (c ad : Bool) (l : PyListener) (fname : String)
    (f : Inst → Value) (d : PropDescriptor)
    (h : properties.prop c false l ad fname f = Except.ok d) :
    d.setter = some (if l.truthy then
        setter_with_listener ("_" ++ fname) l.nameOf (c || ad)
      else setter_plain ("_" ++ fname) (c || ad)) := by
  by_cases h3 : l.truthy
  · simp [properties.prop, h3] at h
    rw [← h]
    simp [h3]
  · simp [properties.prop, h3] at h
    rw [← h]
    simp [h3]

theorem setter_with_listener_noop (field n : String) (ad : Bool) (inst : Inst)
    (v : Value) (h : (getattr? inst field).getD .vnone = v) :
    setter_with_listener field n ad inst v = { attrs := inst, calls := [] } := by
  simp [setter_with_listener, h]

theorem setter_plain_noop (field : String) (ad : Bool) (inst : Inst)
    (v : Value) (h : (getattr? inst field).getD .vnone = v) :
    setter_plain field ad inst v = { attrs := inst, calls := [] } := by
  simp [setter_plain, h]

theorem setter_with_listener_change (field n : String) (ad : Bool) (inst : Inst)
    (new : Value) (h : (getattr? inst field).getD .vnone ≠ new) :
    setter_with_listener field n ad inst new =
      { attrs := (if ad then setattr (setattr inst field new) "_is_dirty" (.vbool true)
                  else setattr inst field new),
        calls := [{ method := n, field := field,
                    old := (getattr? inst field).getD .vnone, new := new,
                    instAtCall := (if ad then
                        setattr (setattr inst field new) "_is_dirty" (.vbool true)
                      else setattr inst field new) }] } := by
  simp [setter_with_listener, h]

theorem setter_plain_change (field : String) (ad : Bool) (inst : Inst)
    (new : Value) (h : (getattr? inst field).getD .vnone ≠ new) :
    setter_plain field ad inst new =
      { attrs := (if ad then setattr (setattr inst field new) "_is_dirty" (.vbool true)
                  else setattr inst field new),
        calls := [] } := by
  simp [setter_plain, h]

theorem setter_with_listener_second_noop (field n : String) (ad : Bool)
    (hfd : ad = true → field ≠ "_is_dirty") (inst : Inst) (w : Value) :
    setter_with_listener field n ad (setter_with_listener field n ad inst w).attrs w
      = { attrs := (setter_with_listener field n ad inst w).attrs, calls := [] } := by
  by_cases h : (getattr? inst field).getD .vnone = w
  · rw [setter_with_listener_noop field n ad inst w h]
    exact setter_with_listener_noop field n ad inst w h
  · rw [setter_with_listener_change field n ad inst w h]
    apply setter_with_listener_noop
    by_cases had : ad = true
    · have h1 : getattr? (setattr (setattr inst field w) "_is_dirty"
          (Value.vbool true)) field = getattr? (setattr inst field w) field :=
        getattr?_setattr_ne _ _ _ _ (Ne.symm (hfd had))
      simp [had, h1, getattr?_setattr_self]
    · have had2 : ad = false := by simpa using had
      simp [had2, getattr?_setattr_self]

theorem setter_plain_second_noop (field : String) (ad : Bool)
    (hfd : ad = true → field ≠ "_is_dirty") (inst : Inst) (w : Value) :
    setter_plain field ad (setter_plain field ad inst w).attrs w
      = { attrs := (setter_plain field ad inst w).attrs, calls := [] } := by
  by_cases h : (getattr? inst field).getD .vnone = w
  · rw [setter_plain_noop field ad inst w h]
    exact setter_plain_noop field ad inst w h
  · rw [setter_plain_change field ad inst w h]
    apply setter_plain_noop
    by_cases had : ad = true
    · have h1 : getattr? (setattr (setattr inst field w) "_is_dirty"
          (Value.vbool true)) field = getattr? (setattr inst field w) field :=
        getattr?_setattr_ne _ _ _ _ (Ne.symm (hfd had))
      simp [had, h1, getattr?_setattr_self]
    · have had2 : ad = false := by simpa using had
      simp [had2, getattr?_setattr_self]

theorem prop_setter_noop (c ad : Bool) (l : PyListener) (fname : String)
    (f : Inst → Value) (d : PropDescriptor) (st : Inst → Value → SetResult)
    (hd : properties.prop c false l ad fname f = Except.ok d)
    (hs : d.setter = some st) (inst : Inst) (v : Value)
    (hv : (getattr? inst ("_" ++ fname)).getD .vnone = v) :
    st inst v = { attrs := inst, calls := [] } := by
  have hcase := prop_setter_cases c ad l fname f d hd
  rw [hs] at hcase
  have hst := Option.some.inj hcase
  subst hst
  cases hl : l.truthy with
  | true =>
      simp only [hl, if_pos rfl]
      exact setter_with_listener_noop _ _ _ inst v hv
  | false =>
      simp only [hl, if_neg Bool.false_ne_true]
      exact setter_plain_noop _ _ inst v hv

/-- Claim C1 (amended).  For every non-read-only declared property and every
instance: assigning a value equal to the setter's view of the current
backing value (missing treated as None) is a complete no-op (no attribute
write, no dirty flag, no listener call); and, provided the property is not
itself named "is_dirty" while auto-dirty is active, writing the same value
twice in succession makes the second write a no-op.  (The original claim,
without the proviso, fails: see the counterexample.) -/
theorem C1_amended (c ad : Bool) (l : PyListener) (fname : String)
    (f : Inst → Value) (d : PropDescriptor) (st : Inst → Value → SetResult)
    (hd : properties.prop c false l ad fname f = Except.ok d)
    (hs : d.setter = some st) (inst : Inst) :
    (∀ v, (getattr? inst ("_" ++ fname)).getD .vnone = v →
        st inst v = { attrs := inst, calls := [] })
    ∧ (((c || ad) = true → fname ≠ "is_dirty") →
        ∀ w, st (st inst w).attrs w = { attrs := (st inst w).attrs, calls := [] }) := by
  have hcase := prop_setter_cases c ad l fname f d hd
  rw [hs] at hcase
  have hst := Option.some.inj hcase
  subst hst
  cases hl : l.truthy with
  | true =>
      simp only [hl, if_pos rfl]
      constructor
      · intro v hv
        exact setter_with_listener_noop _ _ _ inst v hv
      · intro hnd w
        exact setter_with_listener_second_noop _ _ _
          (fun ha => field_ne_dirty (hnd ha)) inst w
  | false =>
      simp only [hl, if_neg Bool.false_ne_true]
      constructor
      · intro v hv
        exact setter_plain_noop _ _ inst v hv
      · intro hnd w
        exact setter_plain_second_noop _ _
          (fun ha => field_ne_dirty (hnd ha)) inst w

/-- Claim C1, counterexample to the claim as stated: for the property named
"is_dirty" declared with auto_dirty and a listener, the dirty-flag write
clobbers the backing field "_is_dirty", so two successive writes of the
same value False each detect a change and each invoke the listener — the
effects fire twice, not at most once. -/
theorem C1_counterexample :
    ∃ d st, properties.prop false false (.pystr "_cb") true "is_dirty"
        (fun _ => Value.vnone) = Except.ok d ∧
      d.setter = some st ∧
      (st [] (Value.vbool false)).calls.length = 1 ∧
      (st (st [] (Value.vbool false)).attrs (Value.vbool false)).calls.length = 1 := by
  refine ⟨_, _, rfl, rfl, ?_, ?_⟩ <;> decide

/-- Witness for C1_amended at a concrete input: writing 50 to a property
"speed" whose backing field already holds 50 is a no-op. -/
theorem C1_witness :
    setter_plain ("_" ++ "speed") false [("_" ++ "speed", Value.vint 50)]
        (Value.vint 50) =
      { attrs := [("_" ++ "speed", Value.vint 50)], calls := [] } := by
  have h := C1_amended false false .pynone "speed" (fun _ => Value.vint 0) _ _
    rfl rfl [("_" ++ "speed", Value.vint 50)]
  exact h.1 (Value.vint 50) (by decide)

/-- Claim C2 (amended).  Declaring a property with read_only together with a
truthy listener (boolean True, or a non-empty string) raises ValueError at
declaration time; a falsy listener (None, False, or the empty string) is
treated as absent, so the declaration succeeds and yields a setterless
descriptor.  (The original claim, for every non-absent listener, fails:
see the counterexample.) -/
theorem C2_amended (c ad : Bool) (l : PyListener) (fname : String)
    (f : Inst → Value) :
    (l.truthy = true →
      properties.prop c true l ad fname f =
        Except.error (.valueError ("property " ++ ("_" ++ fname) ++
          " cannot be read_only and observable at the same time.")))
    ∧ (l.truthy = false →
        ∃ d, properties.prop c true l ad fname f = Except.ok d ∧
          d.setter = Option.none) := by
  constructor
  · intro h
    simp [properties.prop, h]
  · intro h
    refine ⟨{ getter := prop_getter ("_" ++ fname) f, setter := Option.none },
      ?_, rfl⟩
    simp [properties.prop, h]

/-- Claim C2, counterexample to the claim as stated: listener = False is a
non-absent boolean listener argument, yet declaring with read_only = True
and listener = False does not raise — Python truthiness treats False as no
listener and the declaration succeeds. -/
theorem C2_counterexample :
    ∃ d, properties.prop false true (.pybool false) false "x"
        (fun _ => Value.vnone) = Except.ok d :=
  ⟨_, rfl⟩

/-- Witness for C2_amended at a concrete input: read_only with listener True
raises the configuration ValueError. -/
theorem C2_witness :
    properties.prop false true (.pybool true) false "speed"
        (fun _ => Value.vnone) =
      Except.error (.valueError ("property " ++ ("_" ++ "speed") ++
        " cannot be read_only and observable at the same time.")) :=
  (C2_amended false false (.pybool true) "speed" (fun _ => Value.vnone)).1 rfl

/-- Claim C3 (amended).  Reading a declared property returns the backing
field's current value when present and f(instance) otherwise; however the
getter is lambda inst: getattr(inst, field, f(inst)), whose third argument
is evaluated strictly, so f is invoked on every read (the Bool component
of prop_getter records the invocation) and its result is merely discarded
when the backing field is present.  (The original claim's "without
invoking f" fails: see the counterexample.) -/
theorem C3_amended (c ro ad : Bool) (l : PyListener) (fname : String)
    (f : Inst → Value) (d : PropDescriptor)
    (hd : properties.prop c ro l ad fname f = Except.ok d) (inst : Inst) :
    (∀ v, getattr? inst ("_" ++ fname) = some v → d.getter inst = (v, true))
    ∧ (getattr? inst ("_" ++ fname) = Option.none →
        d.getter inst = (f inst, true)) := by
  rw [prop_ok_getter c ro ad l fname f d hd]
  constructor
  · intro v hv
    simp [prop_getter, hv]
  · intro hv
    simp [prop_getter, hv]

/-- Claim C3, counterexample to the claim as stated: with the backing field
"_x" present and holding 7, reading the property does return 7, but the
wrapped function is invoked anyway (second component true) — the claim
says it is not invoked. -/
theorem C3_counterexample :
    prop_getter "_x" (fun _ => Value.vint 99) [("_x", Value.vint 7)] =
      (Value.vint 7, true) := rfl

/-- Witness for C3_amended at a concrete input: with no backing field, the
read returns the fallback value f(instance). -/
theorem C3_witness :
    (PropDescriptor.getter
        { getter := prop_getter ("_" ++ "x") (fun _ => Value.vint 99),
          setter := some (setter_plain ("_" ++ "x") false) } []) =
      (Value.vint 99, true) :=
  (C3_amended false false false .pynone "x" (fun _ => Value.vint 99) _ rfl []).2 rfl

/-- Claim C4: for a property with a configured (truthy) listener, a
value-changing write produces exactly the state obtained by first writing
the backing field, then (when auto-dirty is active) setting "_is_dirty",
and emits exactly one listener invocation: the method named by the
listener configuration, resolved on the instance state after those writes,
with the three positional arguments (backing field name, old value, new
value); on a first-ever write the old value is the sentinel None. -/
theorem C4_listener_write (c ad : Bool) (l : PyListener) (fname : String)
    (f : Inst → Value) (d : PropDescriptor) (st : Inst → Value → SetResult)
    (hl : l.truthy = true)
    (hd : properties.prop c false l ad fname f = Except.ok d)
    (hs : d.setter = some st)
    (inst : Inst) (new : Value)
    (hch : (getattr? inst ("_" ++ fname)).getD .vnone ≠ new) :
    st inst new =
      { attrs := (if (c || ad) then
            setattr (setattr inst ("_" ++ fname) new) "_is_dirty" (.vbool true)
          else setattr inst ("_" ++ fname) new),
        calls := [{ method := l.nameOf, field := "_" ++ fname,
                    old := (getattr? inst ("_" ++ fname)).getD .vnone, new := new,
                    instAtCall := (if (c || ad) then
                        setattr (setattr inst ("_" ++ fname) new) "_is_dirty"
                          (.vbool true)
                      else setattr inst ("_" ++ fname) new) }] } ∧
    (getattr? inst ("_" ++ fname) = Option.none →
      (getattr? inst ("_" ++ fname)).getD .vnone = Value.vnone) := by
  have hcase := prop_setter_cases c ad l fname f d hd
  rw [hs, hl, if_pos rfl] at hcase
  have hst := Option.some.inj hcase
  subst hst
  refine ⟨setter_with_listener_change _ _ _ inst new hch, ?_⟩
  intro hv
  simp [hv]

/-- Witness for C4_listener_write at the spec's example: a first write of 50
to "speed" with listener "_on_change" stores 50 in "_speed" and invokes
_on_change("_speed", None, 50). -/
theorem C4_witness :
    setter_with_listener ("_" ++ "speed") "_on_change" false [] (Value.vint 50) =
      { attrs := [("_" ++ "speed", Value.vint 50)],
        calls := [{ method := "_on_change", field := "_" ++ "speed",
                    old := Value.vnone, new := Value.vint 50,
                    instAtCall := [("_" ++ "speed", Value.vint 50)] }] } := by
  have h := C4_listener_write false false (.pystr "_on_change") "speed"
    (fun _ => Value.vint 0) _ _ rfl rfl rfl [] (Value.vint 50) (by decide)
  exact h.1

/-- Claim C5 (amended).  For a property whose effective auto-dirty is on,
every value-changing write sets "_is_dirty" to True; and the property
setters never write any other value to "_is_dirty" as long as the declared
attribute is not itself named "is_dirty".  However the dirty flag is an
ordinary attribute, and the claim's "no operation of this utility ever
clears it" fails: self_properties overwrites it when the scope carries the
key "is_dirty" (see the counterexample). -/
theorem C5_amended (c ad : Bool) (l : PyListener) (fname : String)
    (f : Inst → Value) (d : PropDescriptor) (st : Inst → Value → SetResult)
    (hd : properties.prop c false l ad fname f = Except.ok d)
    (hs : d.setter = some st) (inst : Inst) (new : Value) :
    ((c || ad) = true →
      (getattr? inst ("_" ++ fname)).getD .vnone ≠ new →
      getattr? (st inst new).attrs "_is_dirty" = some (Value.vbool true))
    ∧ (fname ≠ "is_dirty" →
        (getattr? (st inst new).attrs "_is_dirty" = getattr? inst "_is_dirty" ∨
         getattr? (st inst new).attrs "_is_dirty" = some (Value.vbool true))) := by
  have hcase := prop_setter_cases c ad l fname f d hd
  rw [hs] at hcase
  by_cases hl : l.truthy = true
  · rw [hl, if_pos rfl] at hcase
    have hst := Option.some.inj hcase
    subst hst
    by_cases hch : (getattr? inst ("_" ++ fname)).getD .vnone = new
    · rw [setter_with_listener_noop _ _ _ inst new hch]
      exact ⟨fun _ hne => absurd hch hne, fun _ => Or.inl rfl⟩
    · rw [setter_with_listener_change _ _ _ inst new hch]
      constructor
      · intro had _
        simp [had, getattr?_setattr_self]
      · intro hnd
        by_cases had : (c || ad) = true
        · right
          simp [had, getattr?_setattr_self]
        · left
          have had2 : (c || ad) = false := by simpa using had
          simp only [had2, if_neg Bool.false_ne_true]
          exact getattr?_setattr_ne _ _ _ _ (field_ne_dirty hnd)
  · have hl2 : l.truthy = false := by simpa using hl
    rw [hl2, if_neg Bool.false_ne_true] at hcase
    have hst := Option.some.inj hcase
    subst hst
    by_cases hch : (getattr? inst ("_" ++ fname)).getD .vnone = new
    · rw [setter_plain_noop _ _ inst new hch]
      exact ⟨fun _ hne => absurd hch hne, fun _ => Or.inl rfl⟩
    · rw [setter_plain_change _ _ inst new hch]
      constructor
      · intro had _
        simp [had, getattr?_setattr_self]
      · intro hnd
        by_cases had : (c || ad) = true
        · right
          simp [had, getattr?_setattr_self]
        · left
          have had2 : (c || ad) = false := by simpa using had
          simp only [had2, if_neg Bool.false_ne_true]
          exact getattr?_setattr_ne _ _ _ _ (field_ne_dirty hnd)

/-- Claim C5, counterexample to the claim as stated: "_is_dirty" is an
ordinary instance attribute, so the bulk initializer — an operation of
this utility — clears an already-set dirty flag when its scope has an
entry keyed "is_dirty" with value False. -/
theorem C5_counterexample :
    getattr? (self_properties [("_is_dirty", Value.vbool true)]
        [("is_dirty", Value.vbool false)] [] false) "_is_dirty" =
      some (Value.vbool false) := by decide

/-- Witness for C5_amended at a concrete input: a value-changing write to an
auto-dirty "speed" property sets "_is_dirty" to True. -/
theorem C5_witness :
    getattr? (setter_plain ("_" ++ "speed") (false || true) []
        (Value.vint 50)).attrs "_is_dirty" = some (Value.vbool true) := by
  have h := C5_amended false true .pynone "speed" (fun _ => Value.vint 0) _ _
    rfl rfl [] (Value.vint 50)
  exact h.1 rfl (by decide)

/-- Claim C6: a property declared read_only (listener absent) is returned
without a setter, and every assignment through the descriptor raises
AttributeError; no setter runs, so the instance is untouched (prop_assign
returns only the error and no SetResult). -/
theorem C6_read_only (c ad : Bool) (fname : String) (f : Inst → Value)
    (d : PropDescriptor)
    (hd : properties.prop c true .pynone ad fname f = Except.ok d) :
    d.setter = Option.none ∧
      ∀ (inst : Inst) (v : Value),
        prop_assign d inst v =
          Except.error (.attributeError "cannot set attribute") := by
  have : d = { getter := prop_getter ("_" ++ fname) f, setter := Option.none } := by
    have h2 := hd
    simp [properties.prop, PyListener.truthy] at h2
    exact h2.symm
  subst this
  exact ⟨rfl, fun inst v => rfl⟩

/-- Witness for C6_read_only at a concrete input: the read-only "brand"
property has no setter and assigning to it errors. -/
theorem C6_witness :
    ∃ d, properties.prop false true .pynone false "brand"
        (fun _ => Value.vnone) = Except.ok d ∧
      d.setter = Option.none ∧
      prop_assign d [] (Value.vint 1) =
        Except.error (.attributeError "cannot set attribute") := by
  refine ⟨_, rfl, ?_⟩
  have h := C6_read_only false false "brand" (fun _ => Value.vnone) _ rfl
  exact ⟨h.1, h.2 [] (Value.vint 1)⟩

/-- Claim C9 (amended).  For a property whose listener configuration is
truthy, every value-changing write invokes exactly one method, whose name
is the listener string itself when the listener is a (non-empty) string and
the fixed reserved name "_changed" when the listener is boolean True.  (The
original claim, for every string listener, fails for the empty string: see
the counterexample.) -/
theorem C9_amended (c ad : Bool) (l : PyListener) (fname : String)
    (f : Inst → Value) (d : PropDescriptor) (st : Inst → Value → SetResult)
    (hl : l.truthy = true)
    (hd : properties.prop c false l ad fname f = Except.ok d)
    (hs : d.setter = some st)
    (inst : Inst) (new : Value)
    (hch : (getattr? inst ("_" ++ fname)).getD .vnone ≠ new) :
    (∃ call, (st inst new).calls = [call] ∧ call.method = l.nameOf)
    ∧ PyListener.nameOf (.pybool true) = "_changed"
    ∧ (∀ s : String, PyListener.nameOf (.pystr s) = s) := by
  have hcase := prop_setter_cases c ad l fname f d hd
  rw [hs, hl, if_pos rfl] at hcase
  have hst := Option.some.inj hcase
  subst hst
  refine ⟨?_, rfl, fun s => rfl⟩
  rw [setter_with_listener_change _ _ _ inst new hch]
  exact ⟨_, rfl, rfl⟩

/-- Claim C9, counterexample to the claim as stated: the empty string is a
string listener, yet it is falsy, so the generated setter is the plain one
and a value-changing write invokes no method at all (rather than a method
named by the empty string). -/
theorem C9_counterexample :
    ∃ d st, properties.prop false false (.pystr "") false "x"
        (fun _ => Value.vnone) = Except.ok d ∧
      d.setter = some st ∧
      (st [] (Value.vint 1)).attrs = [("_x", Value.vint 1)] ∧
      (st [] (Value.vint 1)).calls = [] := by
  refine ⟨_, _, rfl, rfl, ?_, ?_⟩ <;> decide

/-- Witness for C9_amended at a concrete input: a changing write through a
listener named by the string "_on_change" invokes exactly that method. -/
theorem C9_witness :
    ∃ call, (setter_with_listener ("_" ++ "speed")
        (PyListener.nameOf (.pystr "_on_change")) false [] (Value.vint 50)).calls
        = [call] ∧ call.method = PyListener.nameOf (.pystr "_on_change") := by
  have h := C9_amended false false (.pystr "_on_change") "speed"
    (fun _ => Value.vint 0) _ _ rfl rfl rfl [] (Value.vint 50) (by decide)
  exact h.1

/-- Claim C10: on an instance that has never written a non-read-only
property (backing field absent), assigning None is a complete no-op — the
missing backing field reads as the sentinel None, which compares equal to
the new value — so no attribute is created, no dirty flag is set, no
listener is invoked, and a subsequent read still returns the fallback
f(instance). -/
theorem C10_assign_none (c ad : Bool) (l : PyListener) (fname : String)
    (f : Inst → Value) (d : PropDescriptor) (st : Inst → Value → SetResult)
    (hd : properties.prop c false l ad fname f = Except.ok d)
    (hs : d.setter = some st) (inst : Inst)
    (habs : getattr? inst ("_" ++ fname) = Option.none) :
    st inst Value.vnone = { attrs := inst, calls := [] } ∧
      d.getter inst = (f inst, true) := by
  have hview : (getattr? inst ("_" ++ fname)).getD .vnone = Value.vnone := by
    simp [habs]
  constructor
  · exact prop_setter_noop c ad l fname f d st hd hs inst Value.vnone hview
  · rw [prop_ok_getter c false ad l fname f d hd]
    simp [prop_getter, habs]

/-- The values of the scope entries kept by the bulk initializer (key is not
"self" and not excluded), in scope order. -/
def filtered_values (scope : List (String × Value)) (exclude : List String) :
    List Value :=
  (scope.filter (fun kv => kv.1 ≠ "self" ∧ kv.1 ∉ exclude)).map Prod.snd

theorem sp_fold_fst (exclude : List String) (scope : List (String × Value)) :
    ∀ (i : Inst) (acc : List Value),
      (scope.foldl
        (fun (acc : Inst × List Value) kv =>
          if kv.1 ≠ "self" ∧ kv.1 ∉ exclude then
            (setattr acc.1 ("_" ++ kv.1) kv.2, acc.2 ++ [kv.2])
          else acc) (i, acc)).1 =
      scope.foldl
        (fun acc kv =>
          if kv.1 ≠ "self" ∧ kv.1 ∉ exclude then setattr acc ("_" ++ kv.1) kv.2
          else acc) i := by
  induction scope with
  | nil => intro i acc; rfl
  | cons kv rest ih =>
      intro i acc
      by_cases h : kv.1 ≠ "self" ∧ kv.1 ∉ exclude
      · simp only [List.foldl_cons, if_pos h]
        exact ih _ _
      · simp only [List.foldl_cons, if_neg h]
        exact ih _ _

theorem sp_fold_snd (exclude : List String) (scope : List (String × Value)) :
    ∀ (i : Inst) (acc : List Value),
      (scope.foldl
        (fun (acc : Inst × List Value) kv =>
          if kv.1 ≠ "self" ∧ kv.1 ∉ exclude then
            (setattr acc.1 ("_" ++ kv.1) kv.2, acc.2 ++ [kv.2])
          else acc) (i, acc)).2 =
      acc ++ filtered_values scope exclude := by
  induction scope with
  | nil => intro i acc; simp [filtered_values]
  | cons kv rest ih =>
      intro i acc
      by_cases h : kv.1 ≠ "self" ∧ kv.1 ∉ exclude
      · simp only [List.foldl_cons, if_pos h]
        rw [ih]
        simp [filtered_values, List.filter_cons, h]
      · simp only [List.foldl_cons, if_neg h]
        rw [ih]
        simp [filtered_values, List.filter_cons, h]

theorem sp_fold_skip (exclude : List String) (scope : List (String × Value))
    (k : String) (hk : k = "self" ∨ k ∈ exclude) :
    ∀ i : Inst,
      getattr? (scope.foldl
        (fun acc kv =>
          if kv.1 ≠ "self" ∧ kv.1 ∉ exclude then setattr acc ("_" ++ kv.1) kv.2
          else acc) i) ("_" ++ k) = getattr? i ("_" ++ k) := by
  induction scope with
  | nil => intro i; rfl
  | cons kv rest ih =>
      intro i
      by_cases h : kv.1 ≠ "self" ∧ kv.1 ∉ exclude
      · simp only [List.foldl_cons, if_pos h]
        rw [ih]
        apply getattr?_setattr_ne
        intro he
        have hkk : kv.1 = k := underscore_inj he
        rcases hk with h1 | h2
        · exact h.1 (hkk.trans h1)
        · exact h.2 (hkk ▸ h2)
      · simp only [List.foldl_cons, if_neg h]
        exact ih i

theorem sp_fold_absent (exclude : List String) (scope : List (String × Value))
    (k : String) :
    ∀ i : Inst, k ∉ scope.map Prod.fst →
      getattr? (scope.foldl
        (fun acc kv =>
          if kv.1 ≠ "self" ∧ kv.1 ∉ exclude then setattr acc ("_" ++ kv.1) kv.2
          else acc) i) ("_" ++ k) = getattr? i ("_" ++ k) := by
  induction scope with
  | nil => intro i _; rfl
  | cons kv rest ih =>
      intro i hk
      have hk1 : kv.1 ≠ k := fun he => hk (by simp [he])
      have hk2 : k ∉ rest.map Prod.fst := fun hm => hk (by simp [hm])
      by_cases h : kv.1 ≠ "self" ∧ kv.1 ∉ exclude
      · simp only [List.foldl_cons, if_pos h]
        rw [ih _ hk2]
        apply getattr?_setattr_ne
        exact fun he => hk1 (underscore_inj he)
      · simp only [List.foldl_cons, if_neg h]
        exact ih i hk2

theorem sp_fold_mem (exclude : List String) (scope : List (String × Value)) :
    ∀ (i : Inst) (kv : String × Value), kv ∈ scope →
      (scope.map Prod.fst).Nodup →
      kv.1 ≠ "self" → kv.1 ∉ exclude →
      getattr? (scope.foldl
        (fun acc kv =>
          if kv.1 ≠ "self" ∧ kv.1 ∉ exclude then setattr acc ("_" ++ kv.1) kv.2
          else acc) i) ("_" ++ kv.1) = some kv.2 := by
  induction scope with
  | nil => intro i kv hmem; exact absurd hmem (List.not_mem_nil kv)
  | cons hd rest ih =>
      intro i kv hmem hnd h1 h2
      have hmap : (hd.1 :: rest.map Prod.fst).Nodup := by simpa using hnd
      have hnd2 : (rest.map Prod.fst).Nodup := hmap.of_cons
      rcases List.mem_cons.mp hmem with he | hm
      · subst he
        have hni : kv.1 ∉ rest.map Prod.fst := (List.nodup_cons.mp hmap).1
        have hcond : kv.1 ≠ "self" ∧ kv.1 ∉ exclude := ⟨h1, h2⟩
        simp only [List.foldl_cons, if_pos hcond]
        rw [sp_fold_absent exclude rest kv.1 _ hni]
        exact getattr?_setattr_self i ("_" ++ kv.1) kv.2
      · by_cases h : hd.1 ≠ "self" ∧ hd.1 ∉ exclude
        · simp only [List.foldl_cons, if_pos h]
          exact ih _ kv hm hnd2 h1 h2
        · simp only [List.foldl_cons, if_neg h]
          exact ih i kv hm hnd2 h1 h2

/-- Claim C8: for every call of the bulk initializer with save_args, the
fixed attribute "_args" of the resulting instance holds the tuple of
exactly the filtered values (keys other than "self" and not excluded), in
scope iteration order; the final write of "_args" happens after the copy
loop, so it holds unconditionally. -/
theorem C8_save_args (inst : Inst) (scope : List (String × Value))
    (exclude : List String) :
    getattr? (self_properties inst scope exclude true) "_args" =
      some (.vtup (ValueList.ofList (filtered_values scope exclude))) := by
  simp only [self_properties, if_true]
  rw [getattr?_setattr_self]
  rw [sp_fold_snd exclude scope inst []]
  simp

/-- Witness for C8_save_args at the spec's example mapping
containing "self", "x" = 10, "y" = 20: the args tuple is (10, 20). -/
theorem C8_witness :
    getattr? (self_properties []
        [("self", Value.vnone), ("x", Value.vint 10), ("y", Value.vint 20)]
        [] true) "_args" =
      some (.vtup (.cons (Value.vint 10) (.cons (Value.vint 20) .nil))) := by
  have h := C8_save_args []
    [("self", Value.vnone), ("x", Value.vint 10), ("y", Value.vint 20)] []
  rw [h]
  decide

/-- Claim C7 (amended).  For every call of the bulk initializer (with
distinct scope keys, as in a Python dict): every kept entry (key not
"self", not excluded) ends up as the instance attribute named by prefixing
one underscore to its key, holding the entry's value, and the attributes of
skipped keys ("self" or excluded) are untouched — except that when
save_args is true the fixed attribute "_args" is written last with the args
tuple, so a kept entry keyed "args" is overwritten and "_args" is written
even when "args" is excluded.  (The original unconditional claim fails:
see the counterexample.) -/
theorem C7_amended (inst : Inst) (scope : List (String × Value))
    (exclude : List String) (save_args : Bool)
    (hnd : (scope.map Prod.fst).Nodup) :
    (∀ kv ∈ scope, kv.1 ≠ "self" → kv.1 ∉ exclude →
      (save_args = true → kv.1 ≠ "args") →
      getattr? (self_properties inst scope exclude save_args) ("_" ++ kv.1) =
        some kv.2)
    ∧ (∀ k : String, (k = "self" ∨ k ∈ exclude) →
        (save_args = true → k ≠ "args") →
        getattr? (self_properties inst scope exclude save_args) ("_" ++ k) =
          getattr? inst ("_" ++ k)) := by
  cases save_args with
  | false =>
      simp only [self_properties, Bool.false_eq_true, if_false]
      constructor
      · intro kv hmem h1 h2 _
        exact sp_fold_mem exclude scope inst kv hmem hnd h1 h2
      · intro k hk _
        exact sp_fold_skip exclude scope k hk inst
  | true =>
      simp only [self_properties, if_true]
      constructor
      · intro kv hmem h1 h2 hargs
        rw [getattr?_setattr_ne _ _ _ _ (field_ne_args (hargs trivial))]
        rw [sp_fold_fst exclude scope inst []]
        exact sp_fold_mem exclude scope inst kv hmem hnd h1 h2
      · intro k hk hargs
        rw [getattr?_setattr_ne _ _ _ _ (field_ne_args (hargs trivial))]
        rw [sp_fold_fst exclude scope inst []]
        exact sp_fold_skip exclude scope k hk inst

/-- Claim C7, counterexample to the claim as stated: with save_args, the
kept entry keyed "args" does not end up as the attribute "_args" holding
its value 5 — the fixed args-tuple write runs after the copy loop and
overwrites it with the tuple (5,). -/
theorem C7_counterexample :
    getattr? (self_properties [] [("args", Value.vint 5)] [] true) "_args" =
      some (Value.vtup (.cons (Value.vint 5) .nil)) ∧
    getattr? (self_properties [] [("args", Value.vint 5)] [] true) "_args" ≠
      some (Value.vint 5) := by
  constructor <;> decide

/-- Witness for C7_amended at the spec's example: mapping with "self",
"a" = 1, "b" = 2 and exclusion ("b"): the instance gains "_a" = 1, and the
"_b" and "_self" attributes are untouched (absent here). -/
theorem C7_witness :
    getattr? (self_properties [] [("self", Value.vnone), ("a", Value.vint 1),
        ("b", Value.vint 2)] ["b"] false) ("_" ++ "a") = some (Value.vint 1) ∧
    getattr? (self_properties [] [("self", Value.vnone), ("a", Value.vint 1),
        ("b", Value.vint 2)] ["b"] false) ("_" ++ "b") = Option.none ∧
    getattr? (self_properties [] [("self", Value.vnone), ("a", Value.vint 1),
        ("b", Value.vint 2)] ["b"] false) ("_" ++ "self") = Option.none := by
  have h := C7_amended [] [("self", Value.vnone), ("a", Value.vint 1),
    ("b", Value.vint 2)] ["b"] false (by decide)
  refine ⟨?_, ?_, ?_⟩
  · exact h.1 ("a", Value.vint 1) (by decide) (by decide) (by decide)
      (fun hf => absurd hf (by decide))
  · rw [h.2 "b" (Or.inr (by decide)) (fun hf => absurd hf (by decide))]
    rfl
  · rw [h.2 "self" (Or.inl rfl) (fun hf => absurd hf (by decide))]
    rfl

/-- Witness for C10_assign_none at a concrete input: assigning None to the
never-written "speed" property leaves the empty instance untouched and a
read still returns the fallback value 0. -/
theorem C10_witness :
    setter_plain ("_" ++ "speed") false [] Value.vnone =
      { attrs := [], calls := [] } ∧
    prop_getter ("_" ++ "speed") (fun _ => Value.vint 0) [] =
      (Value.vint 0, true) := by
  have h := C10_assign_none false false .pynone "speed" (fun _ => Value.vint 0)
    _ _ rfl rfl [] rfl
  exact h
